import Mathlib

/-!
Shallow embedding of `src/automation/dbvoir.py` (dBVoir): a watchdog-based
pipeline that detects completed music downloads, imports them through the
external beets tool and triggers a Jellyfin library rescan.

Modelling choices:
* Paths are plain strings, taken already in normal form, so `str(Path(p)) = p`;
  `Path.suffix` follows pathlib (extension of the final component).
* Times (`time.time()`, `st_mtime`) are integers; one Python call uses a
  single `now` for all its time reads.
* Each stat-like syscall made during one call gets its own outcome in a
  `FileView` (`none` means the call raised `OSError`/`PermissionError`,
  possible at every syscall because the filesystem changes between calls);
  `Path.exists()` is modelled as returning a boolean.
* The beets subprocess (`subprocess.run`) and the Jellyfin HTTP POST are
  external effects; each call's outcome is an oracle argument
  (`RunOutcome`, `HttpOutcome`).
* `logging` and `time.sleep` do not touch the state and are not modelled.
* A `raised` flag in `StepResult` records whether an exception escaped the
  embedded Python function (every embedded function is total; `raised = true`
  marks the executions where the Python original would propagate).
-/

namespace DBVoir

/-- Final component of a path: the text after the last `/` or `\`
(pathlib `PurePath.name` for paths in normal form). -/
def pathName (s : String) : String :=
  (s.toList.foldl (fun acc c => if c = '/' ∨ c = '\\' then [] else acc ++ [c]) []).asString

/-- Index of the last occurrence of `c` in `cs`, or `-1` (Python `str.rfind`). -/
def rfindChar (c : Char) (cs : List Char) : Int :=
  (cs.foldl (fun (p : Int × Int) ch => (p.1 + 1, if ch = c then p.1 else p.2)) (0, -1)).2

/-- pathlib `PurePath.suffix`: `i = name.rfind('.'); name[i:] if 0 < i < len(name)-1 else ''`. -/
def suffix (s : String) : String :=
  let name := (pathName s).toList
  let i := rfindChar '.' name
  if 0 < i ∧ i < (name.length : Int) - 1 then (name.drop i.toNat).asString else ""

/-- Python `str.lower()`, character by character (extensions are ASCII, where
`Char.toLower` agrees with Python). -/
def strLower (s : String) : String := (s.toList.map Char.toLower).asString

/-- Helper for substring search: `pat` begins `hay`. -/
def beginsWith : List Char → List Char → Bool
  | _, [] => true
  | [], _ :: _ => false
  | c :: cs, d :: ds => decide (c = d) && beginsWith cs ds

/-- Helper for substring search over character lists. -/
def hasSub : List Char → List Char → Bool
  | [], pat => pat.isEmpty
  | c :: cs, pat => beginsWith (c :: cs) pat || hasSub cs pat

/-- Python substring test `pat in hay` for strings. -/
def strContains (hay pat : String) : Bool := hasSub hay.toList pat.toList

/-- Python `dict` keyed by path, as an insertion-ordered association list
(`self.pending_imports`). -/
abbrev PyDict := List (String × Int)

/-- Python `d[k] = v`: overwrite in place if the key is present, else append. -/
def dictInsert (k : String) (v : Int) : PyDict → PyDict
  | [] => [(k, v)]
  | (k', v') :: rest => if k' = k then (k, v) :: rest else (k', v') :: dictInsert k v rest

/-- Python `k in d`. -/
def dictMem (k : String) (d : PyDict) : Bool := d.any (fun e => decide (e.1 = k))

/-- Python `del d[k]`. -/
def delKey (k : String) (d : PyDict) : PyDict := d.filter (fun e => decide (e.1 ≠ k))

/-- Python `set` membership `x in s` (`processed_files`). -/
def setMem (x : String) (s : List String) : Bool := s.any (fun y => decide (y = x))

/-- Python `s.add(x)`. -/
def setAdd (x : String) (s : List String) : List String :=
  if setMem x s then s else s ++ [x]

/-- `CONFIG` together with the module-level environment-derived settings. -/
structure Config where
  watch_delay : Int
  file_extensions : List String
  jellyfin_api_key : Option String
  jellyfin_url : String
  jellyfin_library_id : String
deriving Repr, DecidableEq

/-- The concrete `CONFIG` of the source with no environment overrides
(`JELLYFIN_API_KEY` unset, defaults for the rest). -/
def defaultConfig : Config where
  watch_delay := 30
  file_extensions := [".mp3", ".flac", ".m4a", ".ogg", ".opus", ".wav", ".wma"]
  jellyfin_api_key := none
  jellyfin_url := "http://10.0.0.8:8096"
  jellyfin_library_id := ""

/-- The mutable state: `self.pending_imports` and the module-level
`processed_files`. -/
structure ProcState where
  pending_imports : PyDict
  processed_files : List String
deriving Repr, DecidableEq

/-- Outcomes of the stat-like syscalls one inspection of a path makes:
`fileExists` is `path.exists()`; `sizeStat` is `path.stat().st_size`
(`none` = the stat raised); `mtimeStat` is `path.stat().st_mtime`
(`none` = the stat raised). -/
structure FileView where
  fileExists : Bool
  sizeStat : Option Nat
  mtimeStat : Option Int
deriving Repr, DecidableEq

/-- Outcome of the `subprocess.run` call on the beets import command. -/
inductive RunOutcome
  | completed (returncode : Int) (stdout : String)
  | timeout
  | exn
deriving Repr, DecidableEq

/-- Outcome of the `requests.post` call to Jellyfin (`error` covers transport
errors and timeouts, i.e. any exception). -/
inductive HttpOutcome
  | response (status : Nat)
  | error
deriving Repr, DecidableEq

/-- What one call of `trigger_jellyfin_rescan` did: whether the HTTP request
was attempted and whether a 200/204 came back. -/
structure RescanResult where
  sent : Bool
  success : Bool
deriving Repr, DecidableEq

/-- Python falsiness of an optional string (`not value` for `None` or `''`). -/
def pyFalsy (o : Option String) : Bool := decide (o.getD "" = "")

/-- `trigger_jellyfin_rescan` (source lines 182-212): skip with a warning when
the API key or URL is falsy; otherwise POST `/Library/Refresh`; every
exception of the request is caught, so the function never raises. -/
def trigger_jellyfin_rescan (cfg : Config) (http : HttpOutcome) : RescanResult :=
  if pyFalsy cfg.jellyfin_api_key then ⟨false, false⟩
  else if cfg.jellyfin_url = "" then ⟨false, false⟩
  else
    match http with
    | HttpOutcome.response code => ⟨true, decide (code = 200 ∨ code = 204)⟩
    | HttpOutcome.error => ⟨true, false⟩

/-- Result of `MusicProcessor.process_file`: the new state, whether the beets
subprocess was started, and the results of the `trigger_jellyfin_rescan`
calls it made, in order. -/
structure DispatchResult where
  st : ProcState
  toolInvoked : Bool
  rescans : List RescanResult
deriving Repr, DecidableEq

/-- `MusicProcessor.process_file` (source lines 113-158). The beets command
construction is abstracted into the oracle `run`; `TimeoutExpired` and every
other exception are caught (`except` blocks at lines 155-158), so the
function never raises. -/
def process_file (cfg : Config) (path : String) (run : RunOutcome)
    (http : HttpOutcome) (s : ProcState) : DispatchResult :=
  if setMem path s.processed_files then ⟨s, false, []⟩
  else
    match run with
    | RunOutcome.completed rc out =>
      if rc = 0 ∨ strContains out "Skipping" = true ∨ strContains out "not match" = true then
        ⟨{ s with processed_files := setAdd path s.processed_files }, true,
          [trigger_jellyfin_rescan cfg http]⟩
      else ⟨s, true, []⟩
    | RunOutcome.timeout => ⟨s, true, []⟩
    | RunOutcome.exn => ⟨s, true, []⟩

/-- Result of an event-handler entry point (`handle_file`, `on_closed`):
the new state, whether the beets subprocess was started, whether
`process_file` was invoked, the rescan calls made, and whether an exception
escaped the handler. -/
structure StepResult where
  st : ProcState
  toolInvoked : Bool
  dispatched : Bool
  rescans : List RescanResult
  raised : Bool
deriving Repr, DecidableEq

/-- `MusicProcessor.handle_file` (source lines 80-111). The `try` block covers
only the mtime stat and the dispatch (lines 97-111); the size stat at line 89
is outside it, so its `OSError` propagates (`raised = true`). Short-circuit of
`not path.exists() or path.stat().st_size == 0` is kept: the size stat is not
made when `exists()` is false. -/
def handle_file (cfg : Config) (path : String) (view : FileView) (now : Int)
    (run : RunOutcome) (http : HttpOutcome) (s : ProcState) : StepResult :=
  if ¬ (cfg.file_extensions.contains (strLower (suffix path))) then
    ⟨s, false, false, [], false⟩
  else if ¬ view.fileExists then
    ⟨s, false, false, [], false⟩
  else
    match view.sizeStat with
    | none => ⟨s, false, false, [], true⟩
    | some size =>
      if size = 0 then ⟨s, false, false, [], false⟩
      else if setMem path s.processed_files then ⟨s, false, false, [], false⟩
      else
        match view.mtimeStat with
        | none => ⟨s, false, false, [], false⟩
        | some mtime =>
          if now - mtime < cfg.watch_delay then
            ⟨{ s with pending_imports := dictInsert path now s.pending_imports },
              false, false, [], false⟩
          else
            let d := process_file cfg path run http s
            ⟨d.st, d.toolInvoked, true, d.rescans, false⟩

/-- `MusicProcessor.on_closed` (source lines 71-78): for a non-directory event
whose path is a pending key, sleep two seconds (not modelled) and call
`process_file` directly; no filesystem check, no pending mutation. -/
def on_closed (cfg : Config) (path : String) (isDirectory : Bool)
    (run : RunOutcome) (http : HttpOutcome) (s : ProcState) : StepResult :=
  if isDirectory then ⟨s, false, false, [], false⟩
  else if dictMem path s.pending_imports then
    let d := process_file cfg path run http s
    ⟨d.st, d.toolInvoked, true, d.rescans, false⟩
  else ⟨s, false, false, [], false⟩

/-- The readiness re-check of `MusicProcessor.process_pending` (source lines
165-175) for one pending entry `(path, added_time)`: the quiet period has
elapsed since `added_time`, the file exists with positive size, and its mtime
is at least 5 time units old. A stat that raises (`none`) hits the
`except (OSError, PermissionError): continue` and leaves the entry pending. -/
def pendingReady (cfg : Config) (fs : String → FileView) (now : Int)
    (e : String × Int) : Bool :=
  if cfg.watch_delay ≤ now - e.2 then
    let v := fs e.1
    if v.fileExists then
      match v.sizeStat with
      | none => false
      | some size =>
        if 0 < size then
          match v.mtimeStat with
          | none => false
          | some mtime => decide (5 ≤ now - mtime)
        else false
    else false
  else false

/-- The second loop of `process_pending` (source lines 177-179): for each path
of `to_process` in order, delete its pending entry and call `process_file`.
Returns the final state and, per path, the `DispatchResult` of its call. -/
def dispatchList (cfg : Config) (run : String → RunOutcome)
    (http : String → HttpOutcome) :
    List String → ProcState → ProcState × List (String × DispatchResult)
  | [], s => (s, [])
  | p :: ps, s =>
    let s1 : ProcState := { s with pending_imports := delKey p s.pending_imports }
    let d := process_file cfg p (run p) (http p) s1
    let r := dispatchList cfg run http ps d.st
    (r.1, (p, d) :: r.2)

/-- `MusicProcessor.process_pending` (source lines 160-179): snapshot the
pending items, collect those passing `pendingReady` into `to_process`, then
delete and dispatch each in order. -/
def process_pending (cfg : Config) (fs : String → FileView) (now : Int)
    (run : String → RunOutcome) (http : String → HttpOutcome) (s : ProcState) :
    ProcState × List (String × DispatchResult) :=
  let to_process := (s.pending_imports.filter (pendingReady cfg fs now)).map Prod.fst
  dispatchList cfg run http to_process s

/-! Helper lemmas. -/

/-- `process_file` never touches `pending_imports` (it only reads and writes
`processed_files`). -/
theorem process_file_pending_eq (cfg : Config) (path : String) (run : RunOutcome)
    (http : HttpOutcome) (s : ProcState) :
    (process_file cfg path run http s).st.pending_imports = s.pending_imports := by
  unfold process_file
  split
  · rfl
  · cases run with
    | completed rc out => dsimp only; split <;> rfl
    | timeout => rfl
    | exn => rfl

/-- `set.add` only ever extends the set. -/
theorem subset_setAdd (x : String) (s : List String) : s ⊆ setAdd x s := by
  unfold setAdd
  split
  · exact List.Subset.refl s
  · exact List.subset_append_left s [x]

/-- `process_file` never removes entries from `processed_files`. -/
theorem process_file_processed_mono (cfg : Config) (path : String) (run : RunOutcome)
    (http : HttpOutcome) (s : ProcState) :
    s.processed_files ⊆ (process_file cfg path run http s).st.processed_files := by
  unfold process_file
  split
  · exact List.Subset.refl _
  · cases run with
    | completed rc out =>
      dsimp only
      split
      · exact subset_setAdd path s.processed_files
      · exact List.Subset.refl _
    | timeout => exact List.Subset.refl _
    | exn => exact List.Subset.refl _

/-- The dispatch loop of `process_pending` never removes entries from
`processed_files`. -/
theorem dispatchList_processed_mono (cfg : Config) (run : String → RunOutcome)
    (http : String → HttpOutcome) (ps : List String) (s : ProcState) :
    s.processed_files ⊆ (dispatchList cfg run http ps s).1.processed_files := by
  induction ps generalizing s with
  | nil => exact List.Subset.refl _
  | cons p ps ih =>
    unfold dispatchList
    dsimp only
    refine List.Subset.trans ?_ (ih _)
    exact process_file_processed_mono cfg p (run p) (http p)
      { s with pending_imports := delKey p s.pending_imports }

/-! Claim theorems. -/

/-- C1: for a path already in the Processed Record, `handle_file` leaves the
state unchanged, never dispatches and never invokes the import tool (the
processed-files guard at line 93 precedes the dispatch), and `process_file`
returns immediately as a no-op (guard at lines 117-118), so the import tool
is never invoked again for that path. -/
theorem handle_file_processed_noop (cfg : Config) (path : String) (view : FileView)
    (now : Int) (run : RunOutcome) (http : HttpOutcome) (s : ProcState)
    (h : setMem path s.processed_files = true) :
    (handle_file cfg path view now run http s).st = s ∧
    (handle_file cfg path view now run http s).dispatched = false ∧
    (handle_file cfg path view now run http s).toolInvoked = false ∧
    (handle_file cfg path view now run http s).rescans = [] ∧
    process_file cfg path run http s = ⟨s, false, []⟩ := by
  have hp : process_file cfg path run http s = ⟨s, false, []⟩ := by
    unfold process_file
    simp [h]
  refine ⟨?_, ?_, ?_, ?_, hp⟩ <;>
  · unfold handle_file
    split
    · rfl
    · split
      · rfl
      · cases hs : view.sizeStat with
        | none => rfl
        | some size =>
          dsimp only
          split
          · rfl
          · simp [h]

/-- C1 witness: a concrete already-processed path. -/
theorem handle_file_processed_noop_witness :
    setMem "d/a.mp3" (ProcState.mk [] ["d/a.mp3"]).processed_files = true ∧
    ((handle_file defaultConfig "d/a.mp3" ⟨true, some 7, some 0⟩ 100
        (RunOutcome.completed 0 "") HttpOutcome.error ⟨[], ["d/a.mp3"]⟩).st =
        ⟨[], ["d/a.mp3"]⟩ ∧
      (handle_file defaultConfig "d/a.mp3" ⟨true, some 7, some 0⟩ 100
        (RunOutcome.completed 0 "") HttpOutcome.error ⟨[], ["d/a.mp3"]⟩).dispatched = false ∧
      (handle_file defaultConfig "d/a.mp3" ⟨true, some 7, some 0⟩ 100
        (RunOutcome.completed 0 "") HttpOutcome.error ⟨[], ["d/a.mp3"]⟩).toolInvoked = false ∧
      (handle_file defaultConfig "d/a.mp3" ⟨true, some 7, some 0⟩ 100
        (RunOutcome.completed 0 "") HttpOutcome.error ⟨[], ["d/a.mp3"]⟩).rescans = [] ∧
      process_file defaultConfig "d/a.mp3" (RunOutcome.completed 0 "")
        HttpOutcome.error ⟨[], ["d/a.mp3"]⟩ = ⟨⟨[], ["d/a.mp3"]⟩, false, []⟩) :=
  ⟨by decide,
   handle_file_processed_noop defaultConfig "d/a.mp3" ⟨true, some 7, some 0⟩ 100
     (RunOutcome.completed 0 "") HttpOutcome.error ⟨[], ["d/a.mp3"]⟩ (by decide)⟩

/-- C2: when the lower-cased extension of the path is not in the configured
allow-list (line 85), `handle_file` is a complete no-op: no Pending Entry is
created, no dispatch happens, no state changes. -/
theorem handle_file_ext_reject (cfg : Config) (path : String) (view : FileView)
    (now : Int) (run : RunOutcome) (http : HttpOutcome) (s : ProcState)
    (h : cfg.file_extensions.contains (strLower (suffix path)) = false) :
    handle_file cfg path view now run http s = ⟨s, false, false, [], false⟩ := by
  have h' : strLower (suffix path) ∉ cfg.file_extensions := by simpa using h
  unfold handle_file
  simp [h']

/-- C2 witness: a `.txt` path against the concrete allow-list. -/
theorem handle_file_ext_reject_witness :
    defaultConfig.file_extensions.contains (strLower (suffix "d/readme.txt")) = false ∧
    handle_file defaultConfig "d/readme.txt" ⟨true, some 7, some 0⟩ 100
      (RunOutcome.completed 0 "") HttpOutcome.error ⟨[], []⟩ =
      ⟨⟨[], []⟩, false, false, [], false⟩ :=
  ⟨by decide,
   handle_file_ext_reject defaultConfig "d/readme.txt" ⟨true, some 7, some 0⟩ 100
     (RunOutcome.completed 0 "") HttpOutcome.error ⟨[], []⟩ (by decide)⟩

/-- C3: for a path passing every rejection check (extension allowed, exists,
nonzero size, not yet processed, mtime stat succeeded): if
`now - mtime >= watch_delay` the path is dispatched straight to
`process_file`, leaving `pending_imports` untouched; if
`now - mtime < watch_delay` a pending entry keyed by the path is written with
the current time (overwriting any previous timestamp for that key, which is
the effect of `dictInsert`), and no dispatch happens on this call. -/
theorem handle_file_quiet_period (cfg : Config) (path : String) (view : FileView)
    (now : Int) (run : RunOutcome) (http : HttpOutcome) (s : ProcState)
    (n : Nat) (mtime : Int)
    (hext : cfg.file_extensions.contains (strLower (suffix path)) = true)
    (hex : view.fileExists = true)
    (hsize : view.sizeStat = some n) (hn : n ≠ 0)
    (hproc : setMem path s.processed_files = false)
    (hmt : view.mtimeStat = some mtime) :
    (cfg.watch_delay ≤ now - mtime →
      handle_file cfg path view now run http s =
        ⟨(process_file cfg path run http s).st,
         (process_file cfg path run http s).toolInvoked, true,
         (process_file cfg path run http s).rescans, false⟩ ∧
      (handle_file cfg path view now run http s).st.pending_imports =
        s.pending_imports) ∧
    (now - mtime < cfg.watch_delay →
      handle_file cfg path view now run http s =
        ⟨⟨dictInsert path now s.pending_imports, s.processed_files⟩,
         false, false, [], false⟩) := by
  have hmain : handle_file cfg path view now run http s =
      (if now - mtime < cfg.watch_delay then
        ⟨⟨dictInsert path now s.pending_imports, s.processed_files⟩,
         false, false, [], false⟩
      else
        ⟨(process_file cfg path run http s).st,
         (process_file cfg path run http s).toolInvoked, true,
         (process_file cfg path run http s).rescans, false⟩) := by
    have hext' : strLower (suffix path) ∈ cfg.file_extensions := by simpa using hext
    unfold handle_file
    simp [hext', hex, hsize, hn, hproc, hmt]
  constructor
  · intro hge
    have hlt : ¬ (now - mtime < cfg.watch_delay) := not_lt.mpr hge
    rw [hmain, if_neg hlt]
    exact ⟨rfl, process_file_pending_eq cfg path run http s⟩
  · intro hlt
    rw [hmain, if_pos hlt]

/-- C3 witness: the dispatch case with `age = 50 >= 30` and the pending case
with `age = 10 < 30`, on concrete states. -/
theorem handle_file_quiet_period_witness :
    (defaultConfig.file_extensions.contains (strLower (suffix "d/a.mp3")) = true ∧
      (30 : Int) ≤ 100 - 50 ∧ (100 : Int) - 90 < 30) ∧
    handle_file defaultConfig "d/a.mp3" ⟨true, some 7, some 50⟩ 100
        (RunOutcome.completed 0 "") HttpOutcome.error ⟨[], []⟩ =
      ⟨(process_file defaultConfig "d/a.mp3" (RunOutcome.completed 0 "")
          HttpOutcome.error ⟨[], []⟩).st,
       (process_file defaultConfig "d/a.mp3" (RunOutcome.completed 0 "")
          HttpOutcome.error ⟨[], []⟩).toolInvoked, true,
       (process_file defaultConfig "d/a.mp3" (RunOutcome.completed 0 "")
          HttpOutcome.error ⟨[], []⟩).rescans, false⟩ ∧
    handle_file defaultConfig "d/a.mp3" ⟨true, some 7, some 90⟩ 100
        (RunOutcome.completed 0 "") HttpOutcome.error ⟨[], []⟩ =
      ⟨⟨dictInsert "d/a.mp3" 100 [], []⟩, false, false, [], false⟩ :=
  ⟨⟨by decide, by decide, by decide⟩,
   ((handle_file_quiet_period defaultConfig "d/a.mp3" ⟨true, some 7, some 50⟩ 100
      (RunOutcome.completed 0 "") HttpOutcome.error ⟨[], []⟩ 7 50
      (by decide) (by decide) (by decide) (by decide) (by decide) (by decide)).1
      (by decide)).1,
   (handle_file_quiet_period defaultConfig "d/a.mp3" ⟨true, some 7, some 90⟩ 100
      (RunOutcome.completed 0 "") HttpOutcome.error ⟨[], []⟩ 7 90
      (by decide) (by decide) (by decide) (by decide) (by decide) (by decide)).2
      (by decide)⟩

/-- C5: for a not-yet-processed path whose subprocess completed,
`process_file` classifies the run as success exactly when the exit code is
zero or the captured stdout contains `Skipping` or `not match` (line 145); on
success it adds the path to the Processed Record and calls the Rescan
Notifier exactly once (lines 147-149); on any other nonzero exit the state is
unchanged and no rescan call is made (lines 150-153). -/
theorem process_file_classification (cfg : Config) (path : String) (rc : Int)
    (out : String) (http : HttpOutcome) (s : ProcState)
    (hproc : setMem path s.processed_files = false) :
    ((rc = 0 ∨ strContains out "Skipping" = true ∨ strContains out "not match" = true) →
      process_file cfg path (RunOutcome.completed rc out) http s =
        ⟨⟨s.pending_imports, setAdd path s.processed_files⟩, true,
         [trigger_jellyfin_rescan cfg http]⟩) ∧
    (¬ (rc = 0 ∨ strContains out "Skipping" = true ∨ strContains out "not match" = true) →
      process_file cfg path (RunOutcome.completed rc out) http s = ⟨s, true, []⟩) := by
  constructor
  · intro hsucc
    unfold process_file
    simp [hproc, hsucc]
  · intro hfail
    unfold process_file
    simp [hproc, hfail]

/-- C5 witness: nonzero exit with a `Skipping` marker is a success (path
recorded, one notifier call); exit 2 with plain output is a failure (state
unchanged, no call). -/
theorem process_file_classification_witness :
    setMem "d/a.mp3" (ProcState.mk [] []).processed_files = false ∧
    ((2 : Int) = 0 ∨ strContains "Skipping d" "Skipping" = true ∨
      strContains "Skipping d" "not match" = true) ∧
    process_file defaultConfig "d/a.mp3" (RunOutcome.completed 2 "Skipping d")
        (HttpOutcome.response 200) ⟨[], []⟩ =
      ⟨⟨[], setAdd "d/a.mp3" []⟩, true,
       [trigger_jellyfin_rescan defaultConfig (HttpOutcome.response 200)]⟩ ∧
    process_file defaultConfig "d/a.mp3" (RunOutcome.completed 2 "boom")
        (HttpOutcome.response 200) ⟨[], []⟩ = ⟨⟨[], []⟩, true, []⟩ :=
  ⟨by decide, by decide,
   (process_file_classification defaultConfig "d/a.mp3" 2 "Skipping d"
      (HttpOutcome.response 200) ⟨[], []⟩ (by decide)).1 (by decide),
   (process_file_classification defaultConfig "d/a.mp3" 2 "boom"
      (HttpOutcome.response 200) ⟨[], []⟩ (by decide)).2 (by decide)⟩

/-- C6: when the subprocess times out (`subprocess.TimeoutExpired`, line 155)
or raises at launch (`except Exception`, line 157), `process_file` leaves the
whole state unchanged and makes no rescan call; the handlers swallow the
error, so nothing propagates (the embedding is a total function and the
`raised` flag of callers stays false). -/
theorem process_file_timeout_noop (cfg : Config) (path : String) (run : RunOutcome)
    (http : HttpOutcome) (s : ProcState)
    (h : run = RunOutcome.timeout ∨ run = RunOutcome.exn) :
    (process_file cfg path run http s).st = s ∧
    (process_file cfg path run http s).rescans = [] := by
  rcases h with h | h <;> subst h <;> unfold process_file <;> split <;> simp

/-- C6 witness: a concrete timeout leaves a concrete state unchanged. -/
theorem process_file_timeout_noop_witness :
    (RunOutcome.timeout = RunOutcome.timeout ∨ RunOutcome.timeout = RunOutcome.exn) ∧
    (process_file defaultConfig "d/a.mp3" RunOutcome.timeout HttpOutcome.error
        ⟨[("d/b.mp3", 4)], ["x"]⟩).st = ⟨[("d/b.mp3", 4)], ["x"]⟩ ∧
    (process_file defaultConfig "d/a.mp3" RunOutcome.timeout HttpOutcome.error
        ⟨[("d/b.mp3", 4)], ["x"]⟩).rescans = [] :=
  ⟨Or.inl rfl,
   process_file_timeout_noop defaultConfig "d/a.mp3" RunOutcome.timeout
     HttpOutcome.error ⟨[("d/b.mp3", 4)], ["x"]⟩ (Or.inl rfl)⟩

/-- C7 counterexample: the claim says an `OSError`/`PermissionError` during
ANY stat call inside `handle_file` is swallowed with nothing propagated to
the caller. But the size stat of line 89 (`path.stat().st_size`) sits outside
the `try` of lines 97-111, so when it raises — here: existing `song.mp3`,
size stat raises — the exception propagates (`raised = true`), refuting the
claim as stated. -/
theorem handle_file_size_stat_raises :
    (handle_file defaultConfig "d/song.mp3" ⟨true, none, some 0⟩ 100
        RunOutcome.timeout HttpOutcome.error ⟨[], []⟩).raised = true := by
  decide

/-- C7 amended: only an error during the mtime stat (line 98, inside the
`try`) is swallowed silently: the call is then a complete no-op with nothing
propagated. An error during the size stat of line 89 leaves the state
unmutated but propagates the exception. -/
theorem handle_file_stat_error_cases (cfg : Config) (path : String) (view : FileView)
    (now : Int) (run : RunOutcome) (http : HttpOutcome) (s : ProcState)
    (hext : cfg.file_extensions.contains (strLower (suffix path)) = true)
    (hex : view.fileExists = true) :
    ((∃ n, view.sizeStat = some n ∧ n ≠ 0) → view.mtimeStat = none →
      handle_file cfg path view now run http s = ⟨s, false, false, [], false⟩) ∧
    (view.sizeStat = none →
      (handle_file cfg path view now run http s).st = s ∧
      (handle_file cfg path view now run http s).raised = true) := by
  have hext' : strLower (suffix path) ∈ cfg.file_extensions := by simpa using hext
  constructor
  · rintro ⟨n, hsize, hn⟩ hmt
    unfold handle_file
    simp [hext', hex, hsize, hmt, hn]
  · intro hsize
    unfold handle_file
    simp [hext', hex, hsize]

/-- C7 amended witness: mtime stat raising is a silent no-op; size stat
raising keeps the state but propagates. -/
theorem handle_file_stat_error_cases_witness :
    defaultConfig.file_extensions.contains (strLower (suffix "d/a.mp3")) = true ∧
    (handle_file defaultConfig "d/a.mp3" ⟨true, some 7, none⟩ 100
        RunOutcome.timeout HttpOutcome.error ⟨[], []⟩ =
        ⟨⟨[], []⟩, false, false, [], false⟩) ∧
    ((handle_file defaultConfig "d/a.mp3" ⟨true, none, some 0⟩ 100
        RunOutcome.timeout HttpOutcome.error ⟨[], []⟩).st = ⟨[], []⟩ ∧
      (handle_file defaultConfig "d/a.mp3" ⟨true, none, some 0⟩ 100
        RunOutcome.timeout HttpOutcome.error ⟨[], []⟩).raised = true) :=
  ⟨by decide,
   (handle_file_stat_error_cases defaultConfig "d/a.mp3" ⟨true, some 7, none⟩ 100
      RunOutcome.timeout HttpOutcome.error ⟨[], []⟩ (by decide) (by decide)).1
     ⟨7, rfl, by decide⟩ rfl,
   (handle_file_stat_error_cases defaultConfig "d/a.mp3" ⟨true, none, some 0⟩ 100
      RunOutcome.timeout HttpOutcome.error ⟨[], []⟩ (by decide) (by decide)).2 rfl⟩

/-- C8: with a falsy API key or a falsy server URL,
`trigger_jellyfin_rescan` only warns: no HTTP request is sent (lines
184-189). The function is total — `except Exception` at line 211 swallows
every transport error, bad status and timeout — and it never touches the
processing state; consequently the state `process_file` produces, including
Processed Record membership, is the same whatever the HTTP outcome is. -/
theorem trigger_rescan_degraded (cfg : Config) (http : HttpOutcome)
    (h : pyFalsy cfg.jellyfin_api_key = true ∨ cfg.jellyfin_url = "") :
    trigger_jellyfin_rescan cfg http = ⟨false, false⟩ ∧
    (∀ (cfg2 : Config) (path : String) (run : RunOutcome)
        (http1 http2 : HttpOutcome) (s : ProcState),
      (process_file cfg2 path run http1 s).st = (process_file cfg2 path run http2 s).st) := by
  constructor
  · rcases h with h | h
    · unfold trigger_jellyfin_rescan
      simp [h]
    · unfold trigger_jellyfin_rescan
      by_cases hk : pyFalsy cfg.jellyfin_api_key = true
      · simp [hk]
      · simp [hk, h]
  · intro cfg2 path run http1 http2 s
    unfold process_file
    split
    · rfl
    · cases run with
      | completed rc out => dsimp only; split <;> rfl
      | timeout => rfl
      | exn => rfl

/-- C8 witness: missing API key on the default configuration. -/
theorem trigger_rescan_degraded_witness :
    (pyFalsy defaultConfig.jellyfin_api_key = true ∨ defaultConfig.jellyfin_url = "") ∧
    (trigger_jellyfin_rescan defaultConfig HttpOutcome.error = ⟨false, false⟩ ∧
      (∀ (cfg2 : Config) (path : String) (run : RunOutcome)
          (http1 http2 : HttpOutcome) (s : ProcState),
        (process_file cfg2 path run http1 s).st = (process_file cfg2 path run http2 s).st)) :=
  ⟨Or.inl (by decide),
   trigger_rescan_degraded defaultConfig HttpOutcome.error (Or.inl (by decide))⟩

/-- C10: `on_closed` on a non-directory event whose path is a key of
`pending_imports` (line 76) calls `process_file` directly (line 78): no
quiet-period, settle-margin, existence or size re-check happens (`on_closed`
consults no filesystem data at all), and the pending entry is not removed —
`pending_imports` after the call equals its value before, so a later
`process_pending` can still promote the entry. -/
theorem on_closed_pending_dispatch (cfg : Config) (path : String)
    (run : RunOutcome) (http : HttpOutcome) (s : ProcState)
    (h : dictMem path s.pending_imports = true) :
    on_closed cfg path false run http s =
      ⟨(process_file cfg path run http s).st,
       (process_file cfg path run http s).toolInvoked, true,
       (process_file cfg path run http s).rescans, false⟩ ∧
    (on_closed cfg path false run http s).st.pending_imports = s.pending_imports := by
  have hmain : on_closed cfg path false run http s =
      ⟨(process_file cfg path run http s).st,
       (process_file cfg path run http s).toolInvoked, true,
       (process_file cfg path run http s).rescans, false⟩ := by
    unfold on_closed
    simp [h]
  refine ⟨hmain, ?_⟩
  rw [hmain]
  exact process_file_pending_eq cfg path run http s

/-- C10 witness: a concrete pending path is dispatched by `on_closed` and its
entry survives. -/
theorem on_closed_pending_dispatch_witness :
    dictMem "d/a.mp3" (ProcState.mk [("d/a.mp3", 42)] []).pending_imports = true ∧
    (on_closed defaultConfig "d/a.mp3" false (RunOutcome.completed 0 "")
        HttpOutcome.error ⟨[("d/a.mp3", 42)], []⟩ =
      ⟨(process_file defaultConfig "d/a.mp3" (RunOutcome.completed 0 "")
          HttpOutcome.error ⟨[("d/a.mp3", 42)], []⟩).st,
       (process_file defaultConfig "d/a.mp3" (RunOutcome.completed 0 "")
          HttpOutcome.error ⟨[("d/a.mp3", 42)], []⟩).toolInvoked, true,
       (process_file defaultConfig "d/a.mp3" (RunOutcome.completed 0 "")
          HttpOutcome.error ⟨[("d/a.mp3", 42)], []⟩).rescans, false⟩ ∧
      (on_closed defaultConfig "d/a.mp3" false (RunOutcome.completed 0 "")
          HttpOutcome.error ⟨[("d/a.mp3", 42)], []⟩).st.pending_imports =
        [("d/a.mp3", 42)]) :=
  ⟨by decide,
   on_closed_pending_dispatch defaultConfig "d/a.mp3" (RunOutcome.completed 0 "")
     HttpOutcome.error ⟨[("d/a.mp3", 42)], []⟩ (by decide)⟩

/-- C9: the Processed Record only ever grows. Every state-touching operation
(`handle_file`, `process_file`, `process_pending`, `on_closed`) maps the old
`processed_files` into the new one; `trigger_jellyfin_rescan` does not touch
the state at all (its embedding neither takes nor returns a `ProcState`), so
once recorded a path stays recorded. -/
theorem processed_record_monotone (cfg : Config) (path : String) (view : FileView)
    (now : Int) (run : RunOutcome) (http : HttpOutcome) (s : ProcState)
    (isDir : Bool) (fs : String → FileView) (pollNow : Int)
    (runf : String → RunOutcome) (httpf : String → HttpOutcome) :
    s.processed_files ⊆ (handle_file cfg path view now run http s).st.processed_files ∧
    s.processed_files ⊆ (process_file cfg path run http s).st.processed_files ∧
    s.processed_files ⊆ (process_pending cfg fs pollNow runf httpf s).1.processed_files ∧
    s.processed_files ⊆ (on_closed cfg path isDir run http s).st.processed_files := by
  refine ⟨?_, process_file_processed_mono cfg path run http s, ?_, ?_⟩
  · unfold handle_file
    repeat' split
    all_goals first
      | exact fun a ha => ha
      | exact process_file_processed_mono cfg path run http s
  · unfold process_pending
    exact dispatchList_processed_mono cfg runf httpf _ s
  · unfold on_closed
    repeat' split
    all_goals first
      | exact fun a ha => ha
      | exact process_file_processed_mono cfg path run http s

/-! Lemmas for the `process_pending` promotion characterisation (C4). -/

/-- The dispatch loop deletes exactly the keys of the promoted paths from
`pending_imports` (`process_file` itself never touches it). -/
theorem dispatchList_pending_eq (cfg : Config) (run : String → RunOutcome)
    (http : String → HttpOutcome) (ps : List String) (s : ProcState) :
    (dispatchList cfg run http ps s).1.pending_imports =
      ps.foldl (fun d p => delKey p d) s.pending_imports := by
  induction ps generalizing s with
  | nil => rfl
  | cons p ps ih =>
    unfold dispatchList
    dsimp only
    rw [ih, process_file_pending_eq, List.foldl_cons]

/-- The dispatch loop dispatches exactly the paths it is given, in order. -/
theorem dispatchList_fst_map (cfg : Config) (run : String → RunOutcome)
    (http : String → HttpOutcome) (ps : List String) (s : ProcState) :
    (dispatchList cfg run http ps s).2.map Prod.fst = ps := by
  induction ps generalizing s with
  | nil => rfl
  | cons p ps ih =>
    unfold dispatchList
    dsimp only
    rw [List.map_cons, ih]

/-- Folding `del d[k]` over a list of keys keeps exactly the entries whose
key is not among them. -/
theorem foldl_delKey_eq_filter (ks : List String) (d : PyDict) :
    ks.foldl (fun l k => delKey k l) d =
      d.filter (fun e => decide (e.1 ∉ ks)) := by
  induction ks generalizing d with
  | nil => simp
  | cons k ks ih =>
    rw [List.foldl_cons, ih]
    unfold delKey
    rw [List.filter_filter]
    apply List.filter_congr
    intro e he
    by_cases h1 : e.1 = k <;> by_cases h2 : e.1 ∈ ks <;> simp [h1, h2]

/-- In an association list with pairwise-distinct keys, entries are
determined by their key. -/
theorem nodup_keys_inj {d : PyDict} (hnd : (d.map Prod.fst).Nodup)
    {e1 e2 : String × Int} (h1 : e1 ∈ d) (h2 : e2 ∈ d) (hk : e1.1 = e2.1) :
    e1 = e2 := by
  induction d with
  | nil => cases h1
  | cons a d ih =>
    rw [List.map_cons, List.nodup_cons] at hnd
    rcases List.mem_cons.mp h1 with rfl | h1'
    · rcases List.mem_cons.mp h2 with rfl | h2'
      · rfl
      · exact absurd (hk ▸ List.mem_map_of_mem Prod.fst h2') hnd.1
    · rcases List.mem_cons.mp h2 with rfl | h2'
      · exact absurd (hk ▸ List.mem_map_of_mem Prod.fst h1') hnd.1
      · exact ih hnd.2 h1' h2'

/-- With pairwise-distinct pending keys, "key not among the promoted keys"
is the same as "entry failed the readiness re-check". -/
theorem filter_not_ready_keys (cfg : Config) (fs : String → FileView) (now : Int)
    (d : PyDict) (hnd : (d.map Prod.fst).Nodup) :
    d.filter (fun e => decide (e.1 ∉ (d.filter (pendingReady cfg fs now)).map Prod.fst)) =
      d.filter (fun e => ! pendingReady cfg fs now e) := by
  apply List.filter_congr
  intro e he
  by_cases hr : pendingReady cfg fs now e = true
  · have hmem : e.1 ∈ (d.filter (pendingReady cfg fs now)).map Prod.fst :=
      List.mem_map_of_mem Prod.fst (List.mem_filter.mpr ⟨he, hr⟩)
    simp [hr, hmem]
  · have hmem : e.1 ∉ (d.filter (pendingReady cfg fs now)).map Prod.fst := by
      intro hcon
      rcases List.mem_map.mp hcon with ⟨e2, he2, hk⟩
      have he2d := (List.mem_filter.mp he2).1
      have hr2 := (List.mem_filter.mp he2).2
      rw [nodup_keys_inj hnd he2d he hk] at hr2
      exact hr hr2
    simp [hr, hmem]

/-- C4: provided the pending keys are pairwise distinct (which holds for a
Python dict), `process_pending` promotes exactly the entries passing
`pendingReady` — quiet period elapsed since first-seen, file exists with
positive size, and mtime at least 5 time units old: the new pending map
keeps exactly the entries failing the re-check (unchanged, in place), and
the promoted paths are deleted and dispatched one at a time in iteration
order. -/
theorem process_pending_promotion (cfg : Config) (fs : String → FileView)
    (now : Int) (run : String → RunOutcome) (http : String → HttpOutcome)
    (s : ProcState) (hnd : (s.pending_imports.map Prod.fst).Nodup) :
    (process_pending cfg fs now run http s).1.pending_imports =
      s.pending_imports.filter (fun e => ! pendingReady cfg fs now e) ∧
    (process_pending cfg fs now run http s).2.map Prod.fst =
      (s.pending_imports.filter (pendingReady cfg fs now)).map Prod.fst := by
  unfold process_pending
  constructor
  · rw [dispatchList_pending_eq, foldl_delKey_eq_filter,
      filter_not_ready_keys cfg fs now _ hnd]
  · rw [dispatchList_fst_map]

/-- C4 witness: entry `a` (first seen 50, poll at 100, quiet period 30, mtime
60 time units old) is promoted and dispatched; entry `b` (first seen 90) is
too recent, fails the re-check and stays pending unchanged. -/
theorem process_pending_promotion_witness :
    ((([("d/a.mp3", 50), ("d/b.mp3", 90)] : PyDict).map Prod.fst).Nodup) ∧
    ((process_pending defaultConfig (fun _ => ⟨true, some 10, some 40⟩) 100
        (fun _ => RunOutcome.completed 0 "") (fun _ => HttpOutcome.error)
        ⟨[("d/a.mp3", 50), ("d/b.mp3", 90)], []⟩).1.pending_imports =
      ([("d/a.mp3", 50), ("d/b.mp3", 90)] : PyDict).filter
        (fun e => ! pendingReady defaultConfig (fun _ => ⟨true, some 10, some 40⟩) 100 e) ∧
    (process_pending defaultConfig (fun _ => ⟨true, some 10, some 40⟩) 100
        (fun _ => RunOutcome.completed 0 "") (fun _ => HttpOutcome.error)
        ⟨[("d/a.mp3", 50), ("d/b.mp3", 90)], []⟩).2.map Prod.fst =
      (([("d/a.mp3", 50), ("d/b.mp3", 90)] : PyDict).filter
        (pendingReady defaultConfig (fun _ => ⟨true, some 10, some 40⟩) 100)).map Prod.fst) :=
  ⟨by decide,
   process_pending_promotion defaultConfig (fun _ => ⟨true, some 10, some 40⟩) 100
     (fun _ => RunOutcome.completed 0 "") (fun _ => HttpOutcome.error)
     ⟨[("d/a.mp3", 50), ("d/b.mp3", 90)], []⟩ (by decide)⟩

end DBVoir
